import Mathlib

/-!
Verification of the Loan & Reservation Lifecycle Engine.

The definitions below are a shallow embedding of the TypeScript sources:
`reservation-service` (createReservation, processReturnedBook,
expireOverdueReservations, cancelReservation), `loan-service.ts`
(createLoan, returnBook), and the PostgreSQL repositories that implement
the store ports.  The external store is a `Store` record; each engine
operation maps a store to a result together with the successor store.
Timestamps are integers (milliseconds since the epoch); `Date` arithmetic
`setDate(getDate() + n)` is modelled as adding `n` whole days in
milliseconds.  A `Faults` record injects failures into the fallible
downstream port calls (copy-status update, returnedAt update,
overdue-record insert, reservation-status update, copies lookup), which in
the sources return an error `Result`.
-/

deriving instance DecidableEq for Except

namespace Library

/-- Reservation status: PENDING | NOTIFIED | FULFILLED | EXPIRED | CANCELLED. -/
inductive ReservationStatus
  | PENDING
  | NOTIFIED
  | FULFILLED
  | EXPIRED
  | CANCELLED
deriving DecidableEq, Repr

/-- Copy status: AVAILABLE | BORROWED | RESERVED | MAINTENANCE. -/
inductive CopyStatus
  | AVAILABLE
  | BORROWED
  | RESERVED
  | MAINTENANCE
deriving DecidableEq, Repr

/-- A library user; only the fields the engine reads. -/
structure User where
  id : Nat
  loanLimit : Nat
deriving DecidableEq, Repr

/-- A book; catalog metadata is irrelevant to the engine. -/
structure Book where
  id : Nat
deriving DecidableEq, Repr

/-- A physical copy of a book. -/
structure Copy where
  id : Nat
  bookId : Nat
  status : CopyStatus
deriving DecidableEq, Repr

/-- A loan record. -/
structure Loan where
  id : Nat
  userId : Nat
  bookCopyId : Nat
  borrowedAt : Int
  dueDate : Int
  returnedAt : Option Int
deriving DecidableEq, Repr

/-- An overdue record. -/
structure OverdueRecord where
  id : Nat
  loanId : Nat
  overdueDays : Nat
  recordedAt : Int
deriving DecidableEq, Repr

/-- A reservation record. -/
structure Reservation where
  id : Nat
  userId : Nat
  bookId : Nat
  reservedAt : Int
  notifiedAt : Option Int
  expiresAt : Option Int
  status : ReservationStatus
  queuePosition : Nat
deriving DecidableEq, Repr

/-- The external store the ports read and write. -/
structure Store where
  users : List User
  books : List Book
  copies : List Copy
  loans : List Loan
  reservations : List Reservation
  overdueRecords : List OverdueRecord
  nextId : Nat
deriving DecidableEq, Repr

/-- Injected failures for the fallible downstream port calls. -/
structure Faults where
  updateCopyFails : Bool
  updateReturnedAtFails : Bool
  overdueCreateFails : Bool
  updateStatusFails : Bool
  findCopiesFails : Bool
deriving DecidableEq, Repr

/-- All port calls succeed. -/
def noFaults : Faults := ⟨false, false, false, false, false⟩

/-- LoanError taxonomy of loan-service. -/
inductive LoanError
  | USER_NOT_FOUND (userId : Nat)
  | LOAN_LIMIT_EXCEEDED (userId limit currentCount : Nat)
  | COPY_NOT_FOUND (copyId : Nat)
  | BOOK_NOT_AVAILABLE (copyId : Nat)
  | LOAN_NOT_FOUND (loanId : Nat)
  | ALREADY_RETURNED (loanId : Nat)
  | VALIDATION_ERROR (field : String)
deriving DecidableEq, Repr

/-- ReservationError taxonomy of reservation-service; DATABASE_ERROR stands
for a repository-level failure surfaced through the error channel. -/
inductive ReservationError
  | USER_NOT_FOUND (userId : Nat)
  | BOOK_NOT_FOUND (bookId : Nat)
  | ALREADY_RESERVED (userId bookId : Nat)
  | BOOK_AVAILABLE (bookId : Nat)
  | RESERVATION_NOT_FOUND (reservationId : Nat)
  | DATABASE_ERROR
deriving DecidableEq, Repr

/-- Milliseconds of one day (1000 * 60 * 60 * 24). -/
def msPerDay : Int := 86400000

/-- Modelled from the spec: `loan/types.ts` is not among the sources; the
spec fixes the default loan duration at 14 days (dueDate = now + 14 days). -/
def DEFAULT_LOAN_DURATION_DAYS : Nat := 14

/-- Reservation expiry window in days (constant of reservation-service). -/
def RESERVATION_EXPIRY_DAYS : Nat := 7

-- ============================================
-- Store ports (from the PostgreSQL repositories)
-- ============================================

/-- UserPort.findById. -/
def findUserById (st : Store) (userId : Nat) : Option User :=
  st.users.find? (fun u => u.id == userId)

/-- BookPort.findById. -/
def findBookById (st : Store) (bookId : Nat) : Option Book :=
  st.books.find? (fun b => b.id == bookId)

/-- BookPort.findCopyById. -/
def findCopyById (st : Store) (copyId : Nat) : Option Copy :=
  st.copies.find? (fun c => c.id == copyId)

/-- BookPort.updateCopy(copyId, status): fails when the injected fault is
set or no copy row matches; otherwise rewrites the matching copy's status. -/
def updateCopy (st : Store) (f : Faults) (copyId : Nat) (status : CopyStatus) :
    Except Unit Store :=
  if f.updateCopyFails then .error () else
  match st.copies.find? (fun c => c.id == copyId) with
  | none => .error ()
  | some _ =>
      .ok { st with
        copies := st.copies.map (fun c => if c.id == copyId then { c with status := status } else c) }

/-- LoanPort.countActiveLoans(userId): loans of the user with `returned_at IS NULL`. -/
def countActiveLoans (st : Store) (userId : Nat) : Nat :=
  (st.loans.filter (fun l => l.userId == userId && l.returnedAt == none)).length

/-- LoanPort.create: inserts a loan row with `returnedAt = null`. -/
def loanCreate (st : Store) (userId copyId : Nat) (now dueDate : Int) : Loan × Store :=
  let loan : Loan := ⟨st.nextId, userId, copyId, now, dueDate, none⟩
  (loan, { st with loans := st.loans ++ [loan], nextId := st.nextId + 1 })

/-- LoanPort.updateReturnedAt(loanId, when). -/
def updateReturnedAt (st : Store) (f : Faults) (loanId : Nat) (returnedAt : Int) :
    Except LoanError (Loan × Store) :=
  if f.updateReturnedAtFails then .error (.VALIDATION_ERROR "loan") else
  match st.loans.find? (fun l => l.id == loanId) with
  | none => .error (.LOAN_NOT_FOUND loanId)
  | some l =>
      let l1 := { l with returnedAt := some returnedAt }
      .ok (l1,
        { st with loans := st.loans.map (fun x => if x.id == loanId then l1 else x) })

/-- OverdueRecordPort.create(loanId, overdueDays). -/
def overdueCreate (st : Store) (f : Faults) (loanId overdueDays : Nat) (now : Int) :
    Except Unit (OverdueRecord × Store) :=
  if f.overdueCreateFails then .error () else
  let odr : OverdueRecord := ⟨st.nextId, loanId, overdueDays, now⟩
  .ok (odr, { st with overdueRecords := st.overdueRecords ++ [odr], nextId := st.nextId + 1 })

/-- A reservation is active when its status is PENDING or NOTIFIED. -/
def isActiveStatus (s : ReservationStatus) : Bool :=
  s == .PENDING || s == .NOTIFIED

/-- The SQL predicate of the active-reservation queries for one book. -/
def activeFor (bookId : Nat) (r : Reservation) : Bool :=
  r.bookId == bookId && isActiveStatus r.status

/-- Ordering used by `ORDER BY queue_position`. -/
def posLe (a b : Reservation) : Prop := a.queuePosition ≤ b.queuePosition

instance : DecidableRel posLe := fun a b => Nat.decLe a.queuePosition b.queuePosition

instance : IsTotal Reservation posLe := ⟨fun a b => Nat.le_total a.queuePosition b.queuePosition⟩

instance : IsTrans Reservation posLe := ⟨fun _ _ _ h h1 => Nat.le_trans h h1⟩

/-- ReservationPort.findActiveByBookId: active reservations of a book
ordered by queue position ascending. -/
def findActiveByBookId (st : Store) (bookId : Nat) : List Reservation :=
  List.insertionSort posLe (st.reservations.filter (activeFor bookId))

/-- ReservationPort.countActiveByBookId. -/
def countActiveByBookId (st : Store) (bookId : Nat) : Nat :=
  (st.reservations.filter (activeFor bookId)).length

/-- ReservationPort.hasActiveReservation(userId, bookId). -/
def hasActiveReservation (st : Store) (userId bookId : Nat) : Bool :=
  st.reservations.any
    (fun r => r.userId == userId && r.bookId == bookId && isActiveStatus r.status)

/-- ReservationPort.create: inserts a PENDING reservation at the given queue position. -/
def reservationCreate (st : Store) (userId bookId : Nat) (now : Int) (queuePosition : Nat) :
    Reservation × Store :=
  let r : Reservation := ⟨st.nextId, userId, bookId, now, none, none, .PENDING, queuePosition⟩
  (r, { st with reservations := st.reservations ++ [r], nextId := st.nextId + 1 })

/-- SQL COALESCE: the new value when present, the old column value otherwise. -/
def coalesce (newVal old : Option Int) : Option Int :=
  match newVal with
  | some v => some v
  | none => old

/-- The row produced by the reservation UPDATE statement. -/
def withStatus (r : Reservation) (status : ReservationStatus) (notifiedAt expiresAt : Option Int) :
    Reservation :=
  { r with
    status := status
    notifiedAt := coalesce notifiedAt r.notifiedAt
    expiresAt := coalesce expiresAt r.expiresAt }

/-- Replace every reservation row matching the id. -/
def setRes (l : List Reservation) (id : Nat) (r1 : Reservation) : List Reservation :=
  l.map (fun x => if x.id == id then r1 else x)

/-- ReservationPort.updateStatus(id, status, notifiedAt?, expiresAt?):
COALESCE keeps the old timestamps when the optional arguments are absent. -/
def updateStatus (st : Store) (f : Faults) (id : Nat) (status : ReservationStatus)
    (notifiedAt expiresAt : Option Int) : Except ReservationError (Reservation × Store) :=
  if f.updateStatusFails then .error .DATABASE_ERROR else
  match st.reservations.find? (fun r => r.id == id) with
  | none => .error (.RESERVATION_NOT_FOUND id)
  | some r =>
      let r1 := withStatus r status notifiedAt expiresAt
      .ok (r1, { st with reservations := setRes st.reservations id r1 })

/-- The `status = NOTIFIED AND expires_at < NOW()` predicate (SQL yields
false when `expires_at` is NULL). -/
def isStale (now : Int) (r : Reservation) : Bool :=
  r.status == .NOTIFIED && (match r.expiresAt with | some e => decide (e < now) | none => false)

/-- ReservationPort.findExpiredReservations. -/
def findExpiredReservations (st : Store) (now : Int) : List Reservation :=
  st.reservations.filter (isStale now)

-- ============================================
-- Loan Admission (loan-service createLoan)
-- ============================================

/-- createLoan(userId, copyId): the admission sequence of loan-service,
short-circuiting on the first failure; on copy-status update failure the
already-inserted loan row remains in the store. -/
def createLoan (st : Store) (f : Faults) (now : Int) (userId copyId : Nat) :
    Except LoanError Loan × Store :=
  match findUserById st userId with
  | none => (.error (.USER_NOT_FOUND userId), st)
  | some user =>
      let activeLoansCount := countActiveLoans st userId
      if user.loanLimit ≤ activeLoansCount then
        (.error (.LOAN_LIMIT_EXCEEDED userId user.loanLimit activeLoansCount), st)
      else
        match findCopyById st copyId with
        | none => (.error (.COPY_NOT_FOUND copyId), st)
        | some copy =>
            if copy.status == CopyStatus.AVAILABLE then
              let dueDate := now + (DEFAULT_LOAN_DURATION_DAYS : Int) * msPerDay
              let created := loanCreate st userId copyId now dueDate
              match updateCopy created.2 f copyId .BORROWED with
              | .error _ => (.error (.VALIDATION_ERROR "bookCopy"), created.2)
              | .ok st2 => (.ok created.1, st2)
            else
              (.error (.BOOK_NOT_AVAILABLE copyId), st)

/-- Result of returnBook; absent optional fields are `none`. -/
structure ReturnResult where
  loan : Loan
  isOverdue : Bool
  overdueDays : Option Nat
  overdueRecord : Option OverdueRecord
deriving DecidableEq, Repr

/-- Math.ceil(timeDiff / msPerDay) for a positive timeDiff, in ℕ. -/
def ceilDays (timeDiff : Int) : Nat :=
  (timeDiff.toNat + 86399999) / 86400000

-- ============================================
-- Return Processor (loan-service returnBook)
-- ============================================

/-- returnBook(loanId): closes the loan, frees the copy, detects overdue;
overdue-record persistence failure is swallowed, but a copy-status update
failure surfaces a VALIDATION_ERROR after `returnedAt` was persisted. -/
def returnBook (st : Store) (f : Faults) (now : Int) (loanId : Nat) :
    Except LoanError ReturnResult × Store :=
  match st.loans.find? (fun l => l.id == loanId) with
  | none => (.error (.LOAN_NOT_FOUND loanId), st)
  | some loan =>
      match loan.returnedAt with
      | some _ => (.error (.ALREADY_RETURNED loanId), st)
      | none =>
          match updateReturnedAt st f loanId now with
          | .error e => (.error e, st)
          | .ok (loan1, st1) =>
              match updateCopy st1 f loan.bookCopyId .AVAILABLE with
              | .error _ => (.error (.VALIDATION_ERROR "bookCopy"), st1)
              | .ok st2 =>
                  if loan.dueDate < now then
                    let overdueDays := ceilDays (now - loan.dueDate)
                    match overdueCreate st2 f loanId overdueDays now with
                    | .error _ => (.ok ⟨loan1, true, some overdueDays, none⟩, st2)
                    | .ok (odr, st3) => (.ok ⟨loan1, true, some overdueDays, some odr⟩, st3)
                  else
                    (.ok ⟨loan1, false, none, none⟩, st2)

-- ============================================
-- Reservation Queue (reservation-service)
-- ============================================

/-- createReservation(userId, bookId): the admission sequence of
reservation-service; a failed copies lookup is reported as BOOK_NOT_FOUND. -/
def createReservation (st : Store) (f : Faults) (now : Int) (userId bookId : Nat) :
    Except ReservationError Reservation × Store :=
  match findUserById st userId with
  | none => (.error (.USER_NOT_FOUND userId), st)
  | some _ =>
      match findBookById st bookId with
      | none => (.error (.BOOK_NOT_FOUND bookId), st)
      | some _ =>
          if hasActiveReservation st userId bookId then
            (.error (.ALREADY_RESERVED userId bookId), st)
          else if f.findCopiesFails then
            (.error (.BOOK_NOT_FOUND bookId), st)
          else
            let copies := st.copies.filter (fun c => c.bookId == bookId)
            if copies.any (fun c => c.status == CopyStatus.AVAILABLE) then
              (.error (.BOOK_AVAILABLE bookId), st)
            else
              let queuePosition := countActiveByBookId st bookId + 1
              let created := reservationCreate st userId bookId now queuePosition
              (.ok created.1, created.2)

/-- cancelReservation(id): existence check, then an unconditional update to
CANCELLED; both repository failures propagate. -/
def cancelReservation (st : Store) (f : Faults) (reservationId : Nat) :
    Except ReservationError Unit × Store :=
  match st.reservations.find? (fun r => r.id == reservationId) with
  | none => (.error (.RESERVATION_NOT_FOUND reservationId), st)
  | some _ =>
      match updateStatus st f reservationId .CANCELLED none none with
      | .error e => (.error e, st)
      | .ok (_, st1) => (.ok (), st1)

-- ============================================
-- Notification Scheduler (reservation-service)
-- ============================================

/-- notifyReservation: promote one reservation to NOTIFIED with
`expiresAt = notifiedAt + 7 days`; a failed status update yields null. -/
def notifyReservation (st : Store) (f : Faults) (now : Int) (r : Reservation) :
    Option Reservation × Store :=
  match updateStatus st f r.id .NOTIFIED (some now)
      (some (now + (RESERVATION_EXPIRY_DAYS : Int) * msPerDay)) with
  | .ok (r1, st1) => (some r1, st1)
  | .error _ => (none, st)

/-- processReturnedBook(bookId): notify the first PENDING entry of the
active queue; the operation has no error channel (`Result<_, never>`). -/
def processReturnedBook (st : Store) (f : Faults) (now : Int) (bookId : Nat) :
    Option Reservation × Store :=
  let reservations := findActiveByBookId st bookId
  if reservations.isEmpty then (none, st)
  else
    match reservations.find? (fun r => r.status == .PENDING) with
    | none => (none, st)
    | some firstPendingReservation => notifyReservation st f now firstPendingReservation

-- ============================================
-- Expiry Sweep (reservation-service)
-- ============================================

/-- The successor state of a fire-and-forget updateStatus call: the loop of
expireOverdueReservations ignores the result, so a failed update leaves the
store as it was. -/
def applyUpdate (st : Store) (res : Except ReservationError (Reservation × Store)) : Store :=
  match res with
  | .ok (_, s) => s
  | .error _ => st

/-- The loop body of expireOverdueReservations: expire each snapshot entry,
and once per touched book promote the next PENDING reservation. -/
def expireGo (f : Faults) (now : Int) :
    List Reservation → List Nat → List Reservation → Store → List Reservation × Store
  | [], _, acc, st => (acc, st)
  | r :: rest, processed, acc, st =>
      let st1 := applyUpdate st (updateStatus st f r.id .EXPIRED none none)
      if processed.contains r.bookId then
        expireGo f now rest processed acc st1
      else
        let processed1 := r.bookId :: processed
        match (findActiveByBookId st1 r.bookId).find? (fun x => x.status == .PENDING) with
        | none => expireGo f now rest processed1 acc st1
        | some nextPending =>
            match notifyReservation st1 f now nextPending with
            | (some notified, st2) => expireGo f now rest processed1 (acc ++ [notified]) st2
            | (none, st2) => expireGo f now rest processed1 acc st2

/-- expireOverdueReservations: expire all stale NOTIFIED reservations and
cascade one promotion per touched book; no error channel. -/
def expireOverdueReservations (st : Store) (f : Faults) (now : Int) :
    (Nat × List Reservation) × Store :=
  let expired := findExpiredReservations st now
  if expired.isEmpty then ((0, []), st)
  else
    let result := expireGo f now expired [] [] st
    ((expired.length, result.1), result.2)

-- ============================================
-- Auxiliary predicates and lemmas
-- ============================================

/-- Well-formedness used by the queue statements: reservation ids are pairwise distinct. -/
def idsPairwise (l : List Reservation) : Prop :=
  l.Pairwise (fun a b => a.id ≠ b.id)

/-- The shape a promoted reservation takes. -/
def promoted (now : Int) (r : Reservation) : Reservation :=
  { r with
    status := .NOTIFIED
    notifiedAt := some now
    expiresAt := some (now + (RESERVATION_EXPIRY_DAYS : Int) * msPerDay) }

instance (l : List Reservation) : Decidable (idsPairwise l) := by
  unfold idsPairwise
  infer_instance

/-- Queue positions of the active reservations of a book form 1..N. -/
def positionsOk (st : Store) (bookId : Nat) : Prop :=
  (findActiveByBookId st bookId).map (fun r => r.queuePosition) =
    List.range' 1 (findActiveByBookId st bookId).length

instance (st : Store) (bookId : Nat) : Decidable (positionsOk st bookId) := by
  unfold positionsOk
  infer_instance

/-- FULFILLED, EXPIRED and CANCELLED are the terminal statuses. -/
def isTerminal (s : ReservationStatus) : Bool :=
  s == .FULFILLED || s == .EXPIRED || s == .CANCELLED

lemma find?_id_of_mem {l : List Reservation} (hp : idsPairwise l) {r : Reservation}
    (hr : r ∈ l) : l.find? (fun x => x.id == r.id) = some r := by
  induction l with
  | nil => cases hr
  | cons a t ih =>
      rcases List.mem_cons.mp hr with h | h
      · subst h
        exact List.find?_cons_of_pos _ (by simp)
      · have hp1 := List.pairwise_cons.mp hp
        have ha : a.id ≠ r.id := hp1.1 r h
        rw [List.find?_cons_of_neg _ (by simpa using ha)]
        exact ih hp1.2 h

lemma mem_findActive {st : Store} {bookId : Nat} {r : Reservation}
    (h : r ∈ findActiveByBookId st bookId) : r ∈ st.reservations := by
  have h1 := (List.mem_insertionSort posLe).mp h
  exact (List.mem_filter.mp h1).1

lemma activeFor_of_mem_findActive {st : Store} {bookId : Nat} {r : Reservation}
    (h : r ∈ findActiveByBookId st bookId) : activeFor bookId r = true := by
  have h1 := (List.mem_insertionSort posLe).mp h
  exact (List.mem_filter.mp h1).2

-- ============================================
-- C1: promotion when the queue head is already NOTIFIED
-- ============================================

/-- Store for C1: the head of book 5's queue is NOTIFIED, a later entry is PENDING. -/
def C1store : Store :=
  ⟨[], [], [], [],
   [⟨1, 10, 5, 0, some 0, some 50, .NOTIFIED, 1⟩,
    ⟨2, 11, 5, 0, none, none, .PENDING, 2⟩],
   [], 3⟩

/-- C1 counterexample: the claim says that when the head of the active queue is
already NOTIFIED, `processReturnedBook` performs no promotion and returns
`notifiedReservation = null` even if a later entry is PENDING.  On the code the
opposite happens at this input: the later PENDING reservation (id 2) is
promoted and returned. -/
theorem C1_counterexample :
    (processReturnedBook C1store noFaults 100 5).1 ≠ none ∧
    (processReturnedBook C1store noFaults 100 5).1 =
      some ⟨2, 11, 5, 0, some 100, some 604800100, .NOTIFIED, 2⟩ := by
  constructor
  · decide
  · decide

/-- C1 amended: `processReturnedBook` promotes the first PENDING entry of the
active queue ordered by queuePosition — even when the head is already
NOTIFIED — and returns `null` exactly when no active reservation of the book
is PENDING. -/
theorem C1_amended (st : Store) (now : Int) (bookId : Nat)
    (hp : idsPairwise st.reservations) :
    (processReturnedBook st noFaults now bookId).1 =
      ((findActiveByBookId st bookId).find? (fun r => r.status == .PENDING)).map
        (promoted now) := by
  unfold processReturnedBook
  by_cases he : (findActiveByBookId st bookId).isEmpty = true
  · have hnil : findActiveByBookId st bookId = [] := List.isEmpty_iff.mp he
    simp [he, hnil]
  · simp only [he, if_false, Bool.false_eq_true]
    cases hf : (findActiveByBookId st bookId).find? (fun r => r.status == .PENDING) with
    | none => simp
    | some p =>
        have hmem : p ∈ st.reservations := mem_findActive (List.mem_of_find?_eq_some hf)
        simp only [Option.map_some']
        unfold notifyReservation updateStatus
        simp only [noFaults, Bool.false_eq_true, if_false, reduceIte]
        rw [find?_id_of_mem hp hmem]
        simp [promoted, withStatus, coalesce]

/-- Witness for C1 amended at a concrete store. -/
theorem C1_amended_witness :
    (processReturnedBook C1store noFaults 100 5).1 =
      ((findActiveByBookId C1store 5).find? (fun r => r.status == .PENDING)).map
        (promoted 100) :=
  C1_amended C1store 100 5 (by decide)

-- ============================================
-- C2: queue positions 1..N after creation
-- ============================================

/-- Store for C2: book 5 has one BORROWED copy, three users, no reservations. -/
def C2st0 : Store :=
  ⟨[⟨10, 5⟩, ⟨11, 5⟩, ⟨12, 5⟩], [⟨5⟩], [⟨7, 5, .BORROWED⟩], [], [], [], 1⟩

/-- After two reservations for book 5. -/
def C2st2 : Store :=
  (createReservation (createReservation C2st0 noFaults 0 10 5).2 noFaults 0 11 5).2

/-- After cancelling the head reservation (id 1, position 1). -/
def C2st3 : Store := (cancelReservation C2st2 noFaults 1).2

/-- C2 counterexample: the claim says queue positions of active reservations
form the gap-free sequence 1..N immediately after each successful creation,
regardless of interleaved cancellations.  After reserving twice, cancelling
the head (position 1) and reserving again, the new reservation is assigned
`countActive + 1 = 2` while the survivor already holds position 2: the active
positions are [2, 2] — a repeat, and no position 1. -/
theorem C2_counterexample :
    (createReservation C2st3 noFaults 0 12 5).1 =
      .ok ⟨3, 12, 5, 0, none, none, .PENDING, 2⟩ ∧
    (findActiveByBookId (createReservation C2st3 noFaults 0 12 5).2 5).map
      (fun r => r.queuePosition) = [2, 2] ∧
    ¬ positionsOk (createReservation C2st3 noFaults 0 12 5).2 5 := by
  refine ⟨by decide, by decide, ?_⟩
  intro h
  rw [positionsOk] at h
  revert h
  decide

-- ============================================
-- C3: atomicity of createLoan / returnBook
-- ============================================

/-- Store for C3 (createLoan): user 10 and an AVAILABLE copy 7. -/
def C3store : Store := ⟨[⟨10, 5⟩], [], [⟨7, 5, .AVAILABLE⟩], [], [], [], 1⟩

/-- Store for C3 (returnBook): an active loan 1 on BORROWED copy 7, due at 100. -/
def C3storeR : Store :=
  ⟨[⟨10, 5⟩], [], [⟨7, 5, .BORROWED⟩], [⟨1, 10, 7, 0, 100, none⟩], [], [], 2⟩

/-- The copy-status update port fails; every other call succeeds. -/
def C3faults : Faults := ⟨true, false, false, false, false⟩

/-- C3: the spec requires createLoan/returnBook to appear atomic — on error the
store must be unchanged.  The code violates this: when the copy-status update
fails after the loan row was inserted, createLoan returns VALIDATION_ERROR yet
the loan stays committed; returnBook likewise returns VALIDATION_ERROR with
`returnedAt` already persisted. -/
theorem C3_code_bug :
    ((createLoan C3store C3faults 0 10 7).1 = .error (.VALIDATION_ERROR "bookCopy") ∧
      (createLoan C3store C3faults 0 10 7).2.loans = [⟨1, 10, 7, 0, 1209600000, none⟩] ∧
      C3store.loans = []) ∧
    ((returnBook C3storeR C3faults 5 1).1 = .error (.VALIDATION_ERROR "bookCopy") ∧
      (returnBook C3storeR C3faults 5 1).2.loans.map (fun l => l.returnedAt) = [some 5] ∧
      C3storeR.loans.map (fun l => l.returnedAt) = [none]) := by
  refine ⟨⟨by decide, by decide, by decide⟩, by decide, by decide, by decide⟩

-- ============================================
-- C4: error propagation and the swallowed failures
-- ============================================

/-- Store for C4: book 5 has a single PENDING reservation. -/
def C4store : Store := ⟨[], [], [], [], [⟨1, 10, 5, 0, none, none, .PENDING, 1⟩], [], 2⟩

/-- The reservation-status update port fails; every other call succeeds. -/
def C4faults : Faults := ⟨false, false, false, true, false⟩

/-- C4 counterexample: the claim says a failed reservation-status update during
promotion must abort the operation and surface an error.  At this input the
status update fails, yet `processReturnedBook` completes without any error
(its result has no error channel), reports `notifiedReservation = null`, and
leaves the store as it was: the failure is swallowed, not surfaced. -/
theorem C4_counterexample :
    (processReturnedBook C4store C4faults 0 5).1 = none ∧
    (processReturnedBook C4store C4faults 0 5).2 = C4store := by
  exact ⟨by decide, by decide⟩

-- ============================================
-- C6: terminal reservation states
-- ============================================

/-- Store for C6: a single reservation already in the terminal state EXPIRED. -/
def C6store : Store := ⟨[], [], [], [], [⟨1, 10, 5, 0, some 0, some 10, .EXPIRED, 1⟩], [], 2⟩

/-- C6 counterexample: the claim says no engine operation changes the status of
a reservation in a terminal state (FULFILLED, EXPIRED, CANCELLED), and that
cancellation is only PENDING|NOTIFIED → CANCELLED.  The code's
cancelReservation performs no status guard: at this input it succeeds on an
EXPIRED reservation and rewrites it to CANCELLED. -/
theorem C6_counterexample :
    isTerminal (⟨1, 10, 5, 0, some 0, some 10, .EXPIRED, 1⟩ : Reservation).status = true ∧
    (cancelReservation C6store noFaults 1).1 = .ok () ∧
    (cancelReservation C6store noFaults 1).2.reservations.map (fun r => r.status) =
      [.CANCELLED] := by
  exact ⟨by decide, by decide, by decide⟩

-- ============================================
-- C7: BOOK_AVAILABLE iff some copy is AVAILABLE
-- ============================================

/-- C7: once the user exists, the book exists, the pair has no active
reservation and the copies lookup succeeds, createReservation fails
BOOK_AVAILABLE exactly when some copy of the book is AVAILABLE. -/
theorem C7_book_available (st : Store) (f : Faults) (now : Int) (userId bookId : Nat)
    (hu : ∃ u, findUserById st userId = some u)
    (hb : ∃ b, findBookById st bookId = some b)
    (hres : hasActiveReservation st userId bookId = false)
    (hfc : f.findCopiesFails = false) :
    (createReservation st f now userId bookId).1 = .error (.BOOK_AVAILABLE bookId) ↔
      ∃ c ∈ st.copies, c.bookId = bookId ∧ c.status = CopyStatus.AVAILABLE := by
  obtain ⟨u, hu⟩ := hu
  obtain ⟨b, hb⟩ := hb
  have hiff : ((st.copies.filter (fun c => c.bookId == bookId)).any
      (fun c => c.status == CopyStatus.AVAILABLE) = true) ↔
      ∃ c ∈ st.copies, c.bookId = bookId ∧ c.status = CopyStatus.AVAILABLE := by
    simp [List.any_eq_true, List.mem_filter, and_assoc]
  rw [← hiff]
  unfold createReservation
  rw [hu, hb]
  simp only [hres, hfc, Bool.false_eq_true, if_false]
  by_cases hA : (st.copies.filter (fun c => c.bookId == bookId)).any
      (fun c => c.status == CopyStatus.AVAILABLE) = true
  · simp [hA]
  · simp [hA]

/-- Store for the C7 witness: book 5 has an AVAILABLE copy. -/
def C7store : Store := ⟨[⟨10, 5⟩], [⟨5⟩], [⟨7, 5, .AVAILABLE⟩], [], [], [], 1⟩

/-- Witness for C7 at a concrete store. -/
theorem C7_witness :
    (createReservation C7store noFaults 0 10 5).1 = .error (.BOOK_AVAILABLE 5) :=
  (C7_book_available C7store noFaults 0 10 5 ⟨⟨10, 5⟩, by decide⟩ ⟨⟨5⟩, by decide⟩
    (by decide) rfl).mpr ⟨⟨7, 5, .AVAILABLE⟩, by decide, rfl, rfl⟩

-- ============================================
-- C10: failed copies lookup reported as BOOK_NOT_FOUND
-- ============================================

/-- C10: when the user and the book exist and the pair has no active
reservation, a failing copies lookup makes createReservation return
BOOK_NOT_FOUND for the book — the same variant as for an absent book — and
leaves the store unchanged (no reservation is created). -/
theorem C10_copies_lookup_error (st : Store) (f : Faults) (now : Int) (userId bookId : Nat)
    (hu : ∃ u, findUserById st userId = some u)
    (hb : ∃ b, findBookById st bookId = some b)
    (hres : hasActiveReservation st userId bookId = false)
    (hfail : f.findCopiesFails = true) :
    createReservation st f now userId bookId = (.error (.BOOK_NOT_FOUND bookId), st) := by
  obtain ⟨u, hu⟩ := hu
  obtain ⟨b, hb⟩ := hb
  unfold createReservation
  rw [hu, hb]
  simp [hres, hfail]

/-- Store for the C10 witness. -/
def C10store : Store := ⟨[⟨10, 5⟩], [⟨5⟩], [], [], [], [], 1⟩

/-- The copies lookup fails; every other call succeeds. -/
def C10faults : Faults := ⟨false, false, false, false, true⟩

/-- Witness for C10 at a concrete store. -/
theorem C10_witness :
    createReservation C10store C10faults 0 10 5 = (.error (.BOOK_NOT_FOUND 5), C10store) :=
  C10_copies_lookup_error C10store C10faults 0 10 5 ⟨⟨10, 5⟩, by decide⟩ ⟨⟨5⟩, by decide⟩
    (by decide) (by decide)

-- ============================================
-- C2 amended: creation alone preserves positions 1..N
-- ============================================

lemma range1_concat (s n : Nat) : List.range' s (n + 1) = List.range' s n ++ [s + n] := by
  induction n generalizing s with
  | zero => rfl
  | succ n ih =>
      have h1 : List.range' s (n + 1 + 1) = s :: List.range' (s + 1) (n + 1) := rfl
      have h2 : List.range' s (n + 1) = s :: List.range' (s + 1) n := rfl
      rw [h1, ih (s + 1), h2]
      simp [List.cons_append]
      omega

lemma sorted_le_range1 (n : Nat) : List.Sorted (· ≤ ·) (List.range' 1 n) :=
  (List.pairwise_lt_range' 1 n).imp le_of_lt

lemma countActive_eq_length_findActive (st : Store) (bookId : Nat) :
    countActiveByBookId st bookId = (findActiveByBookId st bookId).length := by
  unfold countActiveByBookId findActiveByBookId
  rw [List.length_insertionSort]

/-- Appending one element whose position is N + 1 to a multiset whose sorted
positions are 1..N yields sorted positions 1..N+1. -/
lemma sorted_append_max (A : List Reservation) (x : Reservation) (N : Nat)
    (hA : (List.insertionSort posLe A).map (fun r => r.queuePosition) = List.range' 1 N)
    (hx : x.queuePosition = N + 1) :
    (List.insertionSort posLe (A ++ [x])).map (fun r => r.queuePosition) =
      List.range' 1 (N + 1) := by
  have p2 : List.Perm (A.map (fun r => r.queuePosition)) (List.range' 1 N) := by
    have p3 : List.Perm A (List.insertionSort posLe A) :=
      (List.perm_insertionSort posLe A).symm
    have p4 := p3.map (fun r => r.queuePosition)
    rw [hA] at p4
    exact p4
  have p5 := (List.perm_insertionSort posLe (A ++ [x])).map (fun r => r.queuePosition)
  rw [List.map_append] at p5
  have p6 : List.Perm (A.map (fun r => r.queuePosition) ++ [x].map (fun r => r.queuePosition))
      (List.range' 1 N ++ [x].map (fun r => r.queuePosition)) :=
    p2.append_right _
  have hconcat : List.range' 1 N ++ [x].map (fun r => r.queuePosition) =
      List.range' 1 (N + 1) := by
    rw [range1_concat 1 N]
    simp [hx]
    omega
  have hperm : List.Perm
      ((List.insertionSort posLe (A ++ [x])).map (fun r => r.queuePosition))
      (List.range' 1 (N + 1)) := by
    rw [← hconcat]
    exact p5.trans p6
  have hs1 : List.Sorted (· ≤ ·)
      ((List.insertionSort posLe (A ++ [x])).map (fun r => r.queuePosition)) := by
    have h := List.sorted_insertionSort posLe (A ++ [x])
    exact List.Pairwise.map _ (fun a b hab => hab) h
  exact List.eq_of_perm_of_sorted hperm hs1 (sorted_le_range1 (N + 1))

/-- C2 amended: after a successful createReservation the new reservation gets
position countActive + 1, and if the book's active positions formed 1..N just
before the call (interleaved cancellations and expiries can break that
premise, as the counterexample shows), they form 1..N+1 just after. -/
theorem C2_amended (st : Store) (f : Faults) (now : Int) (userId bookId : Nat)
    (r : Reservation) (st1 : Store)
    (hOk : createReservation st f now userId bookId = (.ok r, st1))
    (hPos : positionsOk st bookId) :
    positionsOk st1 bookId ∧ r.queuePosition = countActiveByBookId st bookId + 1 := by
  simp only [createReservation, reservationCreate] at hOk
  split at hOk
  · simp at hOk
  · split at hOk
    · simp at hOk
    · split at hOk
      · simp at hOk
      · split at hOk
        · simp at hOk
        · split at hOk
          · simp at hOk
          · rw [Prod.mk.injEq] at hOk
            obtain ⟨h1, h2⟩ := hOk
            rw [Except.ok.injEq] at h1
            subst h1
            subst h2
            refine ⟨?_, rfl⟩
            unfold positionsOk at hPos ⊢
            unfold findActiveByBookId at hPos ⊢
            rw [List.length_insertionSort] at hPos ⊢
            simp only []
            rw [List.filter_append]
            have hactive : List.filter (activeFor bookId)
                [⟨st.nextId, userId, bookId, now, none, none, .PENDING,
                  countActiveByBookId st bookId + 1⟩] =
                [⟨st.nextId, userId, bookId, now, none, none, .PENDING,
                  countActiveByBookId st bookId + 1⟩] := by
              simp [activeFor, isActiveStatus]
            rw [hactive]
            rw [List.length_append]
            have hcount : countActiveByBookId st bookId =
                (st.reservations.filter (activeFor bookId)).length := rfl
            exact sorted_append_max _ _ _ (by rw [hPos]) (by rw [hcount])

/-- State after the C2 amended witness call. -/
def C2Wst1 : Store :=
  ⟨[⟨10, 5⟩, ⟨11, 5⟩, ⟨12, 5⟩], [⟨5⟩], [⟨7, 5, .BORROWED⟩], [],
   [⟨1, 10, 5, 0, none, none, .PENDING, 1⟩], [], 2⟩

/-- Witness for C2 amended at a concrete store. -/
theorem C2_amended_witness :
    positionsOk C2Wst1 5 ∧
    (⟨1, 10, 5, 0, none, none, .PENDING, 1⟩ : Reservation).queuePosition =
      countActiveByBookId C2st0 5 + 1 :=
  C2_amended C2st0 noFaults 0 10 5 ⟨1, 10, 5, 0, none, none, .PENDING, 1⟩ C2Wst1
    (by decide) (by decide)

-- ============================================
-- updateStatus / setRes evaluation lemmas
-- ============================================

lemma updateStatus_eq_error_of_none {st : Store} {f : Faults} {id : Nat}
    {status : ReservationStatus} {nAt eAt : Option Int}
    (hf : f.updateStatusFails = false)
    (hfind : st.reservations.find? (fun x => x.id == id) = none) :
    updateStatus st f id status nAt eAt = .error (.RESERVATION_NOT_FOUND id) := by
  unfold updateStatus
  rw [hf, hfind]
  simp

lemma updateStatus_eq_ok {st : Store} {f : Faults} {id : Nat}
    {status : ReservationStatus} {nAt eAt : Option Int} {r : Reservation}
    (hf : f.updateStatusFails = false)
    (hfind : st.reservations.find? (fun x => x.id == id) = some r) :
    updateStatus st f id status nAt eAt =
      .ok (withStatus r status nAt eAt,
        { st with reservations := setRes st.reservations id (withStatus r status nAt eAt) }) := by
  unfold updateStatus
  rw [hf, hfind]
  simp

lemma updateStatus_eq_error_of_fault {st : Store} {f : Faults} {id : Nat}
    {status : ReservationStatus} {nAt eAt : Option Int}
    (hf : f.updateStatusFails = true) :
    updateStatus st f id status nAt eAt = .error .DATABASE_ERROR := by
  unfold updateStatus
  rw [hf]
  simp

lemma mem_setRes {l : List Reservation} {id : Nat} {r1 : Reservation} {y : Reservation}
    (hy : y ∈ setRes l id r1) :
    y = r1 ∨ (y ∈ l ∧ (y.id == id) = false) := by
  unfold setRes at hy
  obtain ⟨x, hx, hxy⟩ := List.mem_map.mp hy
  by_cases h : (x.id == id) = true
  · left
    rw [← hxy]
    simp [h]
  · right
    rw [← hxy, if_neg h]
    exact ⟨hx, Bool.eq_false_iff.mpr h⟩

lemma mem_setRes_of_ne {l : List Reservation} {id : Nat} {r1 : Reservation} {x : Reservation}
    (hx : x ∈ l) (h : (x.id == id) = false) : x ∈ setRes l id r1 := by
  unfold setRes
  have hm := List.mem_map_of_mem (fun z => if z.id == id then r1 else z) hx
  simpa [h] using hm

-- ============================================
-- C5: the Expiry Sweep is idempotent
-- ============================================

/-- Every reservation still stale in the store has its id among the
yet-to-be-processed snapshot entries. -/
def staleInv (now : Int) (l : List Reservation) (st : Store) : Prop :=
  ∀ x ∈ st.reservations, isStale now x = true → x.id ∈ l.map (fun r => r.id)

lemma inv_afterExpire {now : Int} {r : Reservation} {rest : List Reservation} {st : Store}
    (h : staleInv now (r :: rest) st) :
    staleInv now rest (applyUpdate st (updateStatus st noFaults r.id .EXPIRED none none)) := by
  cases hfind : st.reservations.find? (fun x => x.id == r.id) with
  | none =>
      rw [updateStatus_eq_error_of_none rfl hfind]
      intro x hx hs
      have hmem := h x hx hs
      have hne : ¬ ((x.id == r.id) = true) := List.find?_eq_none.mp hfind x hx
      simp only [List.map_cons, List.mem_cons] at hmem
      rcases hmem with hid | hid
      · exact absurd (beq_iff_eq.mpr hid) hne
      · exact hid
  | some y =>
      rw [updateStatus_eq_ok rfl hfind]
      intro x hx hs
      rcases mem_setRes hx with hxy | ⟨hxm, hne⟩
      · subst hxy
        simp [isStale, withStatus] at hs
      · have hmem := h x hxm hs
        simp only [List.map_cons, List.mem_cons] at hmem
        rcases hmem with hid | hid
        · rw [hid] at hne
          simp at hne
        · exact hid

lemma inv_afterNotify {now : Int} {rest : List Reservation} {st : Store} {p : Reservation}
    (h : staleInv now rest st) :
    staleInv now rest (notifyReservation st noFaults now p).2 := by
  unfold notifyReservation
  cases hfind : st.reservations.find? (fun x => x.id == p.id) with
  | none =>
      rw [updateStatus_eq_error_of_none rfl hfind]
      exact h
  | some z =>
      rw [updateStatus_eq_ok rfl hfind]
      intro x hx hs
      rcases mem_setRes hx with hxz | ⟨hxm, _⟩
      · subst hxz
        simp [isStale, withStatus, coalesce, msPerDay, RESERVATION_EXPIRY_DAYS] at hs
      · exact h x hxm hs

lemma expireGo_stale (now : Int) (l : List Reservation) :
    ∀ (processed : List Nat) (acc : List Reservation) (st : Store),
      staleInv now l st →
      ∀ x ∈ (expireGo noFaults now l processed acc st).2.reservations,
        isStale now x = false := by
  induction l with
  | nil =>
      intro processed acc st h x hx
      simp only [expireGo] at hx
      by_cases hs : isStale now x = true
      · have := h x hx hs
        simp at this
      · exact Bool.eq_false_iff.mpr hs
  | cons r rest ih =>
      intro processed acc st h
      have h1 : staleInv now rest
          (applyUpdate st (updateStatus st noFaults r.id .EXPIRED none none)) :=
        inv_afterExpire h
      simp only [expireGo]
      split
      · exact ih processed acc _ h1
      · split
        · exact ih _ acc _ h1
        · rename_i nextPending hp
          cases hnotify : notifyReservation
              (applyUpdate st (updateStatus st noFaults r.id .EXPIRED none none))
              noFaults now nextPending with
          | mk fst snd =>
              have h2 : staleInv now rest snd := by
                have hin := inv_afterNotify (p := nextPending) h1
                rw [hnotify] at hin
                exact hin
              cases fst with
              | some notified => exact ih _ _ _ h2
              | none => exact ih _ _ _ h2

/-- C5: the Expiry Sweep is idempotent — with the port calls succeeding and no
reservation newly passing its expiry between the calls (both calls run at the
same `now`), the second call expires nothing, promotes nothing and returns
`expiredCount = 0` with an empty notification list, leaving the store as the
first call left it. -/
theorem C5_expire_idempotent (st : Store) (now : Int) :
    expireOverdueReservations (expireOverdueReservations st noFaults now).2 noFaults now =
      ((0, []), (expireOverdueReservations st noFaults now).2) := by
  by_cases he : (findExpiredReservations st now).isEmpty = true
  · have h2 : (expireOverdueReservations st noFaults now).2 = st := by
      simp only [expireOverdueReservations, he, if_true]
    rw [h2]
    simp only [expireOverdueReservations, he, if_true]
  · have hinit : staleInv now (findExpiredReservations st now) st := by
      intro x hx hs
      have : x ∈ findExpiredReservations st now := by
        unfold findExpiredReservations
        rw [List.mem_filter]
        exact ⟨hx, hs⟩
      exact List.mem_map_of_mem (fun r => r.id) this
    have h2 : (expireOverdueReservations st noFaults now).2 =
        (expireGo noFaults now (findExpiredReservations st now) [] [] st).2 := by
      simp only [expireOverdueReservations, Bool.eq_false_iff.mpr he, if_false,
        Bool.false_eq_true]
    have hnostale := expireGo_stale now (findExpiredReservations st now) [] [] st hinit
    have hempty : findExpiredReservations
        (expireGo noFaults now (findExpiredReservations st now) [] [] st).2 now = [] := by
      unfold findExpiredReservations
      rw [List.filter_eq_nil_iff]
      intro a ha
      rw [hnostale a ha]
      simp
    rw [h2]
    simp only [expireOverdueReservations, hempty]
    simp

-- ============================================
-- C4 amended: which failures are swallowed
-- ============================================

lemma processReturnedBook_fault (st : Store) (f : Faults) (now : Int) (bookId : Nat)
    (hf : f.updateStatusFails = true) :
    processReturnedBook st f now bookId = (none, st) := by
  unfold processReturnedBook
  by_cases he : (findActiveByBookId st bookId).isEmpty = true
  · simp [he]
  · simp only [he, if_false, Bool.false_eq_true]
    cases hfind : (findActiveByBookId st bookId).find? (fun r => r.status == .PENDING) with
    | none => simp
    | some p =>
        simp only []
        unfold notifyReservation
        rw [updateStatus_eq_error_of_fault hf]

lemma expireGo_fault {f : Faults} (now : Int) (hf : f.updateStatusFails = true)
    (l : List Reservation) :
    ∀ (processed : List Nat) (acc : List Reservation) (st : Store),
      expireGo f now l processed acc st = (acc, st) := by
  induction l with
  | nil =>
      intro processed acc st
      rfl
  | cons r rest ih =>
      intro processed acc st
      simp only [expireGo]
      rw [updateStatus_eq_error_of_fault hf]
      simp only [applyUpdate]
      split
      · exact ih _ _ _
      · split
        · exact ih _ _ _
        · rename_i p hp
          unfold notifyReservation
          rw [updateStatus_eq_error_of_fault hf]
          exact ih _ _ _

lemma updateCopy_eq_error_of_fault {st : Store} {f : Faults} {cid : Nat} {s : CopyStatus}
    (hf : f.updateCopyFails = true) : updateCopy st f cid s = .error () := by
  unfold updateCopy
  rw [hf]
  simp

/-- C4 amended: the propagation policy holds with the swallowed cases made
explicit.  Downstream failures abort createLoan, createReservation,
cancelReservation and returnBook and surface an error to the caller (the
copy-status update failure wrapped as VALIDATION_ERROR, the copies lookup
failure as BOOK_NOT_FOUND).  The exceptions: returnBook swallows exactly the
overdue-record persistence failure, reporting success with overdueDays
present and no overdueRecord; and a reservation-status update failure during
promotion or expiry is not surfaced either — processReturnedBook completes
with notifiedReservation = null and an unchanged store, and
expireOverdueReservations still reports the snapshot count with no
promotions and an unchanged store (both have no error channel). -/
theorem C4_amended :
    (∀ (st : Store) (f : Faults) (now : Int) (bookId : Nat), f.updateStatusFails = true →
      processReturnedBook st f now bookId = (none, st)) ∧
    (∀ (st : Store) (f : Faults) (now : Int), f.updateStatusFails = true →
      expireOverdueReservations st f now =
        (((findExpiredReservations st now).length, []), st)) ∧
    (∀ (st : Store) (f : Faults) (rid : Nat) (r : Reservation),
      st.reservations.find? (fun x => x.id == rid) = some r → f.updateStatusFails = true →
      cancelReservation st f rid = (.error .DATABASE_ERROR, st)) ∧
    (∀ (st : Store) (f : Faults) (now : Int) (loanId : Nat) (loan : Loan),
      st.loans.find? (fun l => l.id == loanId) = some loan →
      loan.returnedAt = none →
      (∃ c, st.copies.find? (fun x => x.id == loan.bookCopyId) = some c) →
      f.updateReturnedAtFails = false → f.updateCopyFails = false →
      f.overdueCreateFails = true → loan.dueDate < now →
      (returnBook st f now loanId).1 =
        .ok ⟨{ loan with returnedAt := some now }, true,
          some (ceilDays (now - loan.dueDate)), none⟩ ∧
      (returnBook st f now loanId).2.overdueRecords = st.overdueRecords) ∧
    (∀ (st : Store) (f : Faults) (now : Int) (uid cid : Nat) (u : User) (copy : Copy),
      findUserById st uid = some u →
      countActiveLoans st uid < u.loanLimit →
      findCopyById st cid = some copy →
      copy.status = CopyStatus.AVAILABLE →
      f.updateCopyFails = true →
      (createLoan st f now uid cid).1 = .error (.VALIDATION_ERROR "bookCopy")) ∧
    (∀ (st : Store) (f : Faults) (now : Int) (userId bookId : Nat),
      (∃ u, findUserById st userId = some u) →
      (∃ b, findBookById st bookId = some b) →
      hasActiveReservation st userId bookId = false →
      f.findCopiesFails = true →
      createReservation st f now userId bookId = (.error (.BOOK_NOT_FOUND bookId), st)) ∧
    (∀ (st : Store) (f : Faults) (now : Int) (loanId : Nat) (loan : Loan),
      st.loans.find? (fun l => l.id == loanId) = some loan →
      loan.returnedAt = none →
      f.updateReturnedAtFails = true →
      returnBook st f now loanId = (.error (.VALIDATION_ERROR "loan"), st)) ∧
    (∀ (st : Store) (f : Faults) (now : Int) (loanId : Nat) (loan : Loan),
      st.loans.find? (fun l => l.id == loanId) = some loan →
      loan.returnedAt = none →
      f.updateReturnedAtFails = false →
      f.updateCopyFails = true →
      (returnBook st f now loanId).1 = .error (.VALIDATION_ERROR "bookCopy")) := by
  refine ⟨processReturnedBook_fault, ?_, ?_, ?_, ?_, ?_, ?_, ?_⟩
  · intro st f now hf
    unfold expireOverdueReservations
    by_cases he : (findExpiredReservations st now).isEmpty = true
    · have hnil : findExpiredReservations st now = [] := List.isEmpty_iff.mp he
      simp [he, hnil]
    · simp only [he, if_false, Bool.false_eq_true]
      rw [expireGo_fault now hf]
  · intro st f rid r hfind hf
    unfold cancelReservation
    rw [hfind, updateStatus_eq_error_of_fault hf]
  · intro st f now loanId loan hfind hact hcopy hra huc hod hover
    obtain ⟨c, hc⟩ := hcopy
    have h1 : updateReturnedAt st f loanId now =
        .ok ({ loan with returnedAt := some now },
          { st with loans :=
            st.loans.map (fun x => if x.id == loanId then { loan with returnedAt := some now }
              else x) }) := by
      unfold updateReturnedAt
      rw [hra, hfind]
      simp
    have h2 : updateCopy
        { st with loans :=
          st.loans.map (fun x => if x.id == loanId then { loan with returnedAt := some now }
            else x) } f loan.bookCopyId .AVAILABLE =
        .ok { st with
          loans := st.loans.map (fun x => if x.id == loanId then
            { loan with returnedAt := some now } else x)
          copies := st.copies.map (fun x => if x.id == loan.bookCopyId then
            { x with status := .AVAILABLE } else x) } := by
      unfold updateCopy
      rw [huc]
      simp only [Bool.false_eq_true, if_false]
      rw [hc]
    have h3 : overdueCreate
        { st with
          loans := st.loans.map (fun x => if x.id == loanId then
            { loan with returnedAt := some now } else x)
          copies := st.copies.map (fun x => if x.id == loan.bookCopyId then
            { x with status := .AVAILABLE } else x) } f loanId
        (ceilDays (now - loan.dueDate)) now = .error () := by
      unfold overdueCreate
      rw [hod]
      simp
    unfold returnBook
    simp only [hfind, hact, h1, h2, if_pos hover, h3]
    exact ⟨trivial, trivial⟩
  · intro st f now uid cid u copy hU hlt hC hA hf
    simp only [createLoan, hU]
    rw [if_neg (Nat.not_le_of_lt hlt)]
    simp only [hC, hA, updateCopy_eq_error_of_fault hf]
    simp
  · intro st f now userId bookId hu hb hres hfail
    obtain ⟨u, hu⟩ := hu
    obtain ⟨b, hb⟩ := hb
    unfold createReservation
    rw [hu, hb]
    simp [hres, hfail]
  · intro st f now loanId loan hfind hact hf
    have hur : updateReturnedAt st f loanId now = .error (.VALIDATION_ERROR "loan") := by
      unfold updateReturnedAt
      rw [hf]
      simp
    simp only [returnBook, hfind, hact, hur]
  · intro st f now loanId loan hfind hact hra hf
    have h1 : updateReturnedAt st f loanId now =
        .ok ({ loan with returnedAt := some now },
          { st with loans :=
            st.loans.map (fun x => if x.id == loanId then { loan with returnedAt := some now }
              else x) }) := by
      unfold updateReturnedAt
      rw [hra, hfind]
      simp
    simp only [returnBook, hfind, hact, h1, updateCopy_eq_error_of_fault hf]

/-- Store for the expiry conjunct of the C4 witness. -/
def C4Wexpire : Store := ⟨[], [], [], [], [⟨1, 10, 5, 0, some 0, some 50, .NOTIFIED, 1⟩], [], 2⟩

/-- Store for the returnBook conjunct of the C4 witness. -/
def C4Wreturn : Store := ⟨[], [], [⟨7, 5, .BORROWED⟩], [⟨1, 10, 7, 0, 1, none⟩], [], [], 2⟩

/-- Only the overdue-record insert fails. -/
def C4odFaults : Faults := ⟨false, false, true, false, false⟩

/-- Only the returnedAt update fails. -/
def C4raFaults : Faults := ⟨false, true, false, false, false⟩

/-- Witness for C4 amended at concrete stores. -/
theorem C4_amended_witness :
    processReturnedBook C4store C4faults 0 5 = (none, C4store) ∧
    expireOverdueReservations C4Wexpire C4faults 100 =
      (((findExpiredReservations C4Wexpire 100).length, []), C4Wexpire) ∧
    cancelReservation C4store C4faults 1 = (.error .DATABASE_ERROR, C4store) ∧
    ((returnBook C4Wreturn C4odFaults 5 1).1 =
        .ok ⟨{ (⟨1, 10, 7, 0, 1, none⟩ : Loan) with returnedAt := some 5 }, true,
          some (ceilDays (5 - (⟨1, 10, 7, 0, 1, none⟩ : Loan).dueDate)), none⟩ ∧
      (returnBook C4Wreturn C4odFaults 5 1).2.overdueRecords = C4Wreturn.overdueRecords) ∧
    (createLoan C3store C3faults 0 10 7).1 = .error (.VALIDATION_ERROR "bookCopy") ∧
    createReservation C10store C10faults 0 10 5 = (.error (.BOOK_NOT_FOUND 5), C10store) ∧
    returnBook C3storeR C4raFaults 5 1 = (.error (.VALIDATION_ERROR "loan"), C3storeR) ∧
    (returnBook C3storeR C3faults 5 1).1 = .error (.VALIDATION_ERROR "bookCopy") :=
  ⟨C4_amended.1 C4store C4faults 0 5 rfl,
   C4_amended.2.1 C4Wexpire C4faults 100 rfl,
   C4_amended.2.2.1 C4store C4faults 1 ⟨1, 10, 5, 0, none, none, .PENDING, 1⟩ (by decide) rfl,
   C4_amended.2.2.2.1 C4Wreturn C4odFaults 5 1 ⟨1, 10, 7, 0, 1, none⟩ (by decide) rfl
     ⟨⟨7, 5, .BORROWED⟩, by decide⟩ rfl rfl rfl (by decide),
   C4_amended.2.2.2.2.1 C3store C3faults 0 10 7 ⟨10, 5⟩ ⟨7, 5, .AVAILABLE⟩ (by decide)
     (by decide) (by decide) rfl rfl,
   C4_amended.2.2.2.2.2.1 C10store C10faults 0 10 5 ⟨⟨10, 5⟩, by decide⟩ ⟨⟨5⟩, by decide⟩
     (by decide) rfl,
   C4_amended.2.2.2.2.2.2.1 C3storeR C4raFaults 5 1 ⟨1, 10, 7, 0, 100, none⟩ (by decide)
     rfl rfl,
   C4_amended.2.2.2.2.2.2.2 C3storeR C3faults 5 1 ⟨1, 10, 7, 0, 100, none⟩ (by decide)
     rfl rfl rfl⟩

-- ============================================
-- C6 amended: how the operations treat terminal reservations
-- ============================================

lemma eq_of_mem_of_same_id {l : List Reservation} (hp : idsPairwise l)
    {a b : Reservation} (ha : a ∈ l) (hb : b ∈ l) (hid : a.id = b.id) : a = b := by
  induction l with
  | nil => cases ha
  | cons c t ih =>
      have hp1 := List.pairwise_cons.mp hp
      rcases List.mem_cons.mp ha with hac | hat
      · rcases List.mem_cons.mp hb with hbc | hbt
        · rw [hac, hbc]
        · subst hac
          exact absurd hid (hp1.1 b hbt)
      · rcases List.mem_cons.mp hb with hbc | hbt
        · subst hbc
          exact absurd hid.symm (hp1.1 a hat)
        · exact ih hp1.2 hat hbt

lemma idsPairwise_setRes {l : List Reservation} {id : Nat} {r1 : Reservation}
    (hid : r1.id = id) (hp : idsPairwise l) : idsPairwise (setRes l id r1) := by
  unfold idsPairwise setRes at *
  rw [List.pairwise_map]
  have hgid : ∀ x : Reservation, (if (x.id == id) = true then r1 else x).id = x.id := by
    intro x
    by_cases hx : (x.id == id) = true
    · rw [if_pos hx, hid]
      exact (beq_iff_eq.mp hx).symm
    · rw [if_neg hx]
  refine hp.imp ?_
  intro a b hab
  rw [hgid a, hgid b]
  exact hab

lemma notify_state (st : Store) (f : Faults) (now : Int) (p : Reservation)
    (hp : idsPairwise st.reservations) (hpmem : p ∈ st.reservations)
    (hppend : p.status = .PENDING) :
    (∀ r ∈ st.reservations, isTerminal r.status = true →
        r ∈ (notifyReservation st f now p).2.reservations) ∧
    idsPairwise (notifyReservation st f now p).2.reservations ∧
    (∀ x ∈ (notifyReservation st f now p).2.reservations,
        x ∈ st.reservations ∨ x.status = .NOTIFIED) := by
  unfold notifyReservation
  cases hf : f.updateStatusFails with
  | true =>
      rw [updateStatus_eq_error_of_fault hf]
      exact ⟨fun r hr _ => hr, hp, fun x hx => .inl hx⟩
  | false =>
      cases hfind : st.reservations.find? (fun x => x.id == p.id) with
      | none =>
          rw [updateStatus_eq_error_of_none hf hfind]
          exact ⟨fun r hr _ => hr, hp, fun x hx => .inl hx⟩
      | some z =>
          rw [updateStatus_eq_ok hf hfind]
          have hzid : z.id = p.id := by simpa using List.find?_some hfind
          refine ⟨?_, idsPairwise_setRes hzid hp, ?_⟩
          · intro r hr ht
            apply mem_setRes_of_ne hr
            by_cases hbeq : (r.id == p.id) = true
            · have hrp : r = p := eq_of_mem_of_same_id hp hr hpmem (beq_iff_eq.mp hbeq)
              rw [hrp, hppend] at ht
              simp [isTerminal] at ht
            · exact Bool.eq_false_iff.mpr hbeq
          · intro x hx
            rcases mem_setRes hx with hxz | ⟨hxm, _⟩
            · right
              rw [hxz]
              rfl
            · exact .inl hxm

lemma expireStep_state (st : Store) (f : Faults) (q : Reservation) (rest : List Reservation)
    (hp : idsPairwise st.reservations)
    (hqnotin : q.id ∉ rest.map (fun r => r.id))
    (hN : ∀ x ∈ st.reservations, x.id ∈ (q :: rest).map (fun r => r.id) →
      x.status = .NOTIFIED) :
    (∀ r ∈ st.reservations, isTerminal r.status = true →
        r ∈ (applyUpdate st (updateStatus st f q.id .EXPIRED none none)).reservations) ∧
    idsPairwise (applyUpdate st (updateStatus st f q.id .EXPIRED none none)).reservations ∧
    (∀ x ∈ (applyUpdate st (updateStatus st f q.id .EXPIRED none none)).reservations,
        x.id ∈ rest.map (fun r => r.id) → x.status = .NOTIFIED) := by
  have hNrest : ∀ x ∈ st.reservations, x.id ∈ rest.map (fun r => r.id) →
      x.status = .NOTIFIED := by
    intro x hx hid
    exact hN x hx (by rw [List.map_cons]; exact List.mem_cons_of_mem _ hid)
  cases hf : f.updateStatusFails with
  | true =>
      rw [updateStatus_eq_error_of_fault hf]
      exact ⟨fun r hr _ => hr, hp, hNrest⟩
  | false =>
      cases hfind : st.reservations.find? (fun x => x.id == q.id) with
      | none =>
          rw [updateStatus_eq_error_of_none hf hfind]
          exact ⟨fun r hr _ => hr, hp, hNrest⟩
      | some y =>
          rw [updateStatus_eq_ok hf hfind]
          simp only [applyUpdate]
          have hyid : y.id = q.id := by simpa using List.find?_some hfind
          refine ⟨?_, idsPairwise_setRes hyid hp, ?_⟩
          · intro r hr ht
            apply mem_setRes_of_ne hr
            by_cases hbeq : (r.id == q.id) = true
            · have hrid : r.id ∈ (q :: rest).map (fun r => r.id) := by
                rw [List.map_cons, beq_iff_eq.mp hbeq]
                exact List.mem_cons_self _ _
              rw [hN r hr hrid] at ht
              simp [isTerminal] at ht
            · exact Bool.eq_false_iff.mpr hbeq
          · intro x hx hid
            rcases mem_setRes hx with hxy | ⟨hxm, _⟩
            · exfalso
              apply hqnotin
              have hxid : x.id = q.id := by
                rw [hxy]
                exact hyid
              rw [← hxid]
              exact hid
            · exact hNrest x hxm hid

lemma expireGo_preserves_terminal (f : Faults) (now : Int) (l : List Reservation) :
    ∀ (processed : List Nat) (acc : List Reservation) (st : Store),
      idsPairwise st.reservations →
      (l.map (fun r => r.id)).Pairwise (fun a b => a ≠ b) →
      (∀ x ∈ st.reservations, x.id ∈ l.map (fun r => r.id) → x.status = .NOTIFIED) →
      ∀ r ∈ st.reservations, isTerminal r.status = true →
        r ∈ (expireGo f now l processed acc st).2.reservations := by
  induction l with
  | nil =>
      intro processed acc st _ _ _ r hr _
      simpa [expireGo] using hr
  | cons q rest ih =>
      intro processed acc st hp hlp hN r hr ht
      rw [List.map_cons] at hlp
      have hlp1 := List.pairwise_cons.mp hlp
      have hqnotin : q.id ∉ rest.map (fun r => r.id) := by
        intro hmem
        exact hlp1.1 q.id hmem rfl
      obtain ⟨hpre, hp1, hN1⟩ := expireStep_state st f q rest hp hqnotin hN
      have hr1 := hpre r hr ht
      simp only [expireGo]
      split
      · exact ih processed acc _ hp1 hlp1.2 hN1 r hr1 ht
      · split
        · exact ih _ acc _ hp1 hlp1.2 hN1 r hr1 ht
        · rename_i p hfindp
          have hpmem : p ∈ (applyUpdate st
              (updateStatus st f q.id .EXPIRED none none)).reservations :=
            mem_findActive (List.mem_of_find?_eq_some hfindp)
          have hppend : p.status = .PENDING := by simpa using List.find?_some hfindp
          obtain ⟨hpre2, hp2, hmix⟩ := notify_state _ f now p hp1 hpmem hppend
          have hN2 : ∀ x ∈ (notifyReservation
              (applyUpdate st (updateStatus st f q.id .EXPIRED none none)) f now
              p).2.reservations,
              x.id ∈ rest.map (fun r => r.id) → x.status = .NOTIFIED := by
            intro x hx hid
            rcases hmix x hx with hxm | hstat
            · exact hN1 x hxm hid
            · exact hstat
          have hr2 := hpre2 r hr1 ht
          cases hnotify : notifyReservation
              (applyUpdate st (updateStatus st f q.id .EXPIRED none none)) f now p with
          | mk fst snd =>
              rw [hnotify] at hN2 hp2 hr2
              cases fst with
              | some notified => exact ih _ _ _ hp2 hlp1.2 hN2 r hr2 ht
              | none => exact ih _ _ _ hp2 hlp1.2 hN2 r hr2 ht

lemma processReturnedBook_preserves_terminal (st : Store) (f : Faults) (now : Int) (b : Nat)
    (hp : idsPairwise st.reservations) :
    ∀ r ∈ st.reservations, isTerminal r.status = true →
      r ∈ (processReturnedBook st f now b).2.reservations := by
  intro r hr ht
  unfold processReturnedBook
  by_cases he : (findActiveByBookId st b).isEmpty = true
  · simpa [he] using hr
  · simp only [he, if_false, Bool.false_eq_true]
    cases hfindp : (findActiveByBookId st b).find? (fun x => x.status == .PENDING) with
    | none => simpa using hr
    | some p =>
        simp only []
        have hpmem : p ∈ st.reservations := mem_findActive (List.mem_of_find?_eq_some hfindp)
        have hppend : p.status = .PENDING := by simpa using List.find?_some hfindp
        exact (notify_state st f now p hp hpmem hppend).1 r hr ht

lemma expire_preserves_terminal (st : Store) (f : Faults) (now : Int)
    (hp : idsPairwise st.reservations) :
    ∀ r ∈ st.reservations, isTerminal r.status = true →
      r ∈ (expireOverdueReservations st f now).2.reservations := by
  intro r hr ht
  by_cases he : (findExpiredReservations st now).isEmpty = true
  · simp only [expireOverdueReservations, he, if_true]
    exact hr
  · simp only [expireOverdueReservations, he, if_false, Bool.false_eq_true]
    apply expireGo_preserves_terminal f now (findExpiredReservations st now) [] [] st hp ?_ ?_
      r hr ht
    · rw [List.pairwise_map]
      unfold findExpiredReservations
      exact hp.sublist (List.filter_sublist _)
    · intro x hx hid
      rw [List.mem_map] at hid
      obtain ⟨y, hy, hyx⟩ := hid
      unfold findExpiredReservations at hy
      have hym := (List.mem_filter.mp hy).1
      have hystale := (List.mem_filter.mp hy).2
      have hxy : x = y := eq_of_mem_of_same_id hp hx hym hyx.symm
      rw [hxy]
      simp only [isStale, Bool.and_eq_true, beq_iff_eq] at hystale
      exact hystale.1

/-- C6 amended: processReturnedBook and expireOverdueReservations never touch
a reservation already in a terminal state (FULFILLED, EXPIRED, CANCELLED) —
the record survives unchanged — but cancelReservation has no status guard: it
rewrites any existing reservation, terminal or not, to CANCELLED. -/
theorem C6_amended :
    (∀ (st : Store) (f : Faults) (now : Int) (bookId : Nat), idsPairwise st.reservations →
      ∀ r ∈ st.reservations, isTerminal r.status = true →
        r ∈ (processReturnedBook st f now bookId).2.reservations) ∧
    (∀ (st : Store) (f : Faults) (now : Int), idsPairwise st.reservations →
      ∀ r ∈ st.reservations, isTerminal r.status = true →
        r ∈ (expireOverdueReservations st f now).2.reservations) ∧
    (∀ (st : Store) (f : Faults) (rid : Nat) (r : Reservation),
      f.updateStatusFails = false →
      st.reservations.find? (fun x => x.id == rid) = some r →
      (cancelReservation st f rid).1 = .ok () ∧
      { r with status := ReservationStatus.CANCELLED } ∈
        (cancelReservation st f rid).2.reservations) := by
  refine ⟨processReturnedBook_preserves_terminal, expire_preserves_terminal, ?_⟩
  intro st f rid r hf hfind
  unfold cancelReservation
  rw [hfind, updateStatus_eq_ok hf hfind]
  refine ⟨rfl, ?_⟩
  have hbeq : (r.id == rid) = true :=
    List.find?_some (p := fun x : Reservation => x.id == rid) hfind
  have hmem := List.mem_map_of_mem
    (fun x => if x.id == rid then withStatus r .CANCELLED none none else x)
    (List.mem_of_find?_eq_some hfind)
  simp only [hbeq, if_true] at hmem
  have hws : withStatus r .CANCELLED none none =
      { r with status := ReservationStatus.CANCELLED } := by
    simp [withStatus, coalesce]
  rw [hws] at hmem
  exact hmem

/-- Store for the first C6 witness conjunct: a PENDING head and an EXPIRED entry. -/
def C6Wst1 : Store :=
  ⟨[], [], [], [],
   [⟨1, 10, 5, 0, none, none, .PENDING, 1⟩, ⟨2, 11, 5, 0, some 0, some 1, .EXPIRED, 2⟩], [], 3⟩

/-- Store for the second C6 witness conjunct: a stale NOTIFIED entry and a CANCELLED one. -/
def C6Wst2 : Store :=
  ⟨[], [], [], [],
   [⟨1, 10, 5, 0, some 0, some 50, .NOTIFIED, 1⟩,
    ⟨2, 11, 5, 0, some 0, some 1, .CANCELLED, 2⟩], [], 3⟩

/-- Witness for C6 amended at concrete stores. -/
theorem C6_amended_witness :
    (⟨2, 11, 5, 0, some 0, some 1, .EXPIRED, 2⟩ : Reservation) ∈
      (processReturnedBook C6Wst1 noFaults 100 5).2.reservations ∧
    (⟨2, 11, 5, 0, some 0, some 1, .CANCELLED, 2⟩ : Reservation) ∈
      (expireOverdueReservations C6Wst2 noFaults 100).2.reservations ∧
    ((cancelReservation C6store noFaults 1).1 = .ok () ∧
      { (⟨1, 10, 5, 0, some 0, some 10, .EXPIRED, 1⟩ : Reservation) with
        status := ReservationStatus.CANCELLED } ∈
        (cancelReservation C6store noFaults 1).2.reservations) :=
  ⟨C6_amended.1 C6Wst1 noFaults 100 5 (by decide)
      ⟨2, 11, 5, 0, some 0, some 1, .EXPIRED, 2⟩ (by decide) (by decide),
   C6_amended.2.1 C6Wst2 noFaults 100 (by decide)
      ⟨2, 11, 5, 0, some 0, some 1, .CANCELLED, 2⟩ (by decide) (by decide),
   C6_amended.2.2 C6store noFaults 1 ⟨1, 10, 5, 0, some 0, some 10, .EXPIRED, 1⟩ rfl
      (by decide)⟩

-- ============================================
-- C8: the loan limit invariant
-- ============================================

/-- The two loan-side operations, for stating properties of call sequences. -/
inductive LibOp
  | borrow (userId copyId : Nat) (now : Int)
  | giveBack (loanId : Nat) (now : Int)

/-- Successor store of one loan-side operation. -/
def applyOp (st : Store) (f : Faults) : LibOp → Store
  | .borrow u c now => (createLoan st f now u c).2
  | .giveBack l now => (returnBook st f now l).2

/-- Successor store of a sequence of loan-side operations. -/
def applyOps (st : Store) (f : Faults) (ops : List LibOp) : Store :=
  ops.foldl (fun s op => applyOp s f op) st

lemma updateCopy_ok_state {st : Store} {f : Faults} {cid : Nat} {s : CopyStatus} {st2 : Store}
    (h : updateCopy st f cid s = .ok st2) :
    st2.users = st.users ∧ st2.loans = st.loans ∧ st2.reservations = st.reservations ∧
    st2.overdueRecords = st.overdueRecords ∧ st2.nextId = st.nextId := by
  unfold updateCopy at h
  split at h
  · simp at h
  · split at h
    · simp at h
    · rw [Except.ok.injEq] at h
      subst h
      exact ⟨rfl, rfl, rfl, rfl, rfl⟩

lemma updateReturnedAt_ok {st : Store} {f : Faults} {lid : Nat} {now : Int} {loan1 : Loan}
    {st1 : Store} (h : updateReturnedAt st f lid now = .ok (loan1, st1)) :
    loan1.returnedAt = some now ∧ st1.users = st.users ∧
    st1.loans = st.loans.map (fun x => if x.id == lid then loan1 else x) := by
  simp only [updateReturnedAt] at h
  split at h
  · simp at h
  · split at h
    · simp at h
    · rw [Except.ok.injEq, Prod.mk.injEq] at h
      obtain ⟨h1, h2⟩ := h
      subst h1
      subst h2
      exact ⟨rfl, rfl, rfl⟩

lemma overdueCreate_ok_state {st : Store} {f : Faults} {lid d : Nat} {now : Int}
    {odr : OverdueRecord} {st3 : Store} (h : overdueCreate st f lid d now = .ok (odr, st3)) :
    st3.users = st.users ∧ st3.loans = st.loans := by
  simp only [overdueCreate] at h
  split at h
  · simp at h
  · rw [Except.ok.injEq, Prod.mk.injEq] at h
    obtain ⟨h1, h2⟩ := h
    subst h2
    exact ⟨rfl, rfl⟩

/-- State shape of createLoan: either the loans are untouched, or the limit
check passed and exactly the new loan row was appended. -/
lemma createLoan_state (st : Store) (f : Faults) (now : Int) (uid cid : Nat) :
    (createLoan st f now uid cid).2.users = st.users ∧
    ((createLoan st f now uid cid).2.loans = st.loans ∨
      ∃ user, findUserById st uid = some user ∧
        countActiveLoans st uid < user.loanLimit ∧
        (createLoan st f now uid cid).2.loans =
          st.loans ++ [⟨st.nextId, uid, cid, now,
            now + (DEFAULT_LOAN_DURATION_DAYS : Int) * msPerDay, none⟩]) := by
  simp only [createLoan, loanCreate]
  cases hU : findUserById st uid with
  | none => exact ⟨rfl, .inl rfl⟩
  | some user =>
      simp only []
      by_cases hlim : user.loanLimit ≤ countActiveLoans st uid
      · rw [if_pos hlim]
        exact ⟨rfl, .inl rfl⟩
      · rw [if_neg hlim]
        cases hC : findCopyById st cid with
        | none => exact ⟨rfl, .inl rfl⟩
        | some copy =>
            simp only []
            by_cases hA : (copy.status == CopyStatus.AVAILABLE) = true
            · rw [if_pos hA]
              cases hUC : updateCopy
                  { st with
                    loans := st.loans ++ [⟨st.nextId, uid, cid, now,
                      now + (DEFAULT_LOAN_DURATION_DAYS : Int) * msPerDay, none⟩]
                    nextId := st.nextId + 1 } f cid CopyStatus.BORROWED with
              | error e =>
                  exact ⟨rfl, .inr ⟨user, rfl, Nat.lt_of_not_le hlim, rfl⟩⟩
              | ok st2 =>
                  obtain ⟨hu2, hl2, _, _, _⟩ := updateCopy_ok_state hUC
                  exact ⟨hu2, .inr ⟨user, rfl, Nat.lt_of_not_le hlim, hl2⟩⟩
            · rw [if_neg hA]
              exact ⟨rfl, .inl rfl⟩

/-- State shape of returnBook: either the loans are untouched, or every row of
the returned loan's id was overwritten with a closed (returnedAt set) row. -/
lemma returnBook_state (st : Store) (f : Faults) (now : Int) (lid : Nat) :
    (returnBook st f now lid).2.users = st.users ∧
    ((returnBook st f now lid).2.loans = st.loans ∨
      ∃ l1 : Loan, l1.returnedAt = some now ∧
        (returnBook st f now lid).2.loans =
          st.loans.map (fun x => if x.id == lid then l1 else x)) := by
  cases hF : st.loans.find? (fun l => l.id == lid) with
  | none =>
      simp only [returnBook, hF]
      exact ⟨trivial, .inl trivial⟩
  | some loan =>
      cases hR : loan.returnedAt with
      | some t =>
          simp only [returnBook, hF, hR]
          exact ⟨trivial, .inl trivial⟩
      | none =>
          cases hUR : updateReturnedAt st f lid now with
          | error e =>
              simp only [returnBook, hF, hR, hUR]
              exact ⟨trivial, .inl trivial⟩
          | ok pair =>
              obtain ⟨loan1, st1⟩ := pair
              obtain ⟨hret, hu1, hl1⟩ := updateReturnedAt_ok hUR
              cases hUC : updateCopy st1 f loan.bookCopyId CopyStatus.AVAILABLE with
              | error e =>
                  simp only [returnBook, hF, hR, hUR, hUC]
                  exact ⟨hu1, .inr ⟨loan1, hret, hl1⟩⟩
              | ok st2 =>
                  obtain ⟨hu2, hl2, _, _, _⟩ := updateCopy_ok_state hUC
                  by_cases hO : loan.dueDate < now
                  · cases hOD : overdueCreate st2 f lid (ceilDays (now - loan.dueDate)) now with
                    | error e =>
                        simp only [returnBook, hF, hR, hUR, hUC, if_pos hO, hOD]
                        exact ⟨hu2.trans hu1, .inr ⟨loan1, hret, hl2.trans hl1⟩⟩
                    | ok pr =>
                        obtain ⟨odr, st3⟩ := pr
                        obtain ⟨hu3, hl3⟩ := overdueCreate_ok_state hOD
                        simp only [returnBook, hF, hR, hUR, hUC, if_pos hO, hOD]
                        exact ⟨(hu3.trans hu2).trans hu1, .inr
                          ⟨loan1, hret, (hl3.trans hl2).trans hl1⟩⟩
                  · simp only [returnBook, hF, hR, hUR, hUC, if_neg hO]
                    exact ⟨hu2.trans hu1, .inr ⟨loan1, hret, hl2.trans hl1⟩⟩

lemma length_filter_map_le {α : Type} (g : α → α) (p : α → Bool)
    (h : ∀ x, p (g x) = true → p x = true) (l : List α) :
    ((l.map g).filter p).length ≤ (l.filter p).length := by
  induction l with
  | nil => simp
  | cons a t ih =>
      simp only [List.map_cons, List.filter_cons]
      by_cases hga : p (g a) = true
      · have hpa := h a hga
        simp only [hga, hpa, if_true, List.length_cons]
        omega
      · rw [if_neg hga]
        by_cases hpa : p a = true
        · rw [if_pos hpa]
          exact Nat.le_succ_of_le ih
        · rw [if_neg hpa]
          exact ih

lemma countActive_of_loans_eq {st st1 : Store} (h : st1.loans = st.loans) (w : Nat) :
    countActiveLoans st1 w = countActiveLoans st w := by
  unfold countActiveLoans
  rw [h]

lemma countActive_append_new {st st1 : Store} {uid cid nid : Nat} {now d : Int}
    (h : st1.loans = st.loans ++ [⟨nid, uid, cid, now, d, none⟩]) (w : Nat) :
    countActiveLoans st1 w = countActiveLoans st w + (if uid == w then 1 else 0) := by
  unfold countActiveLoans
  rw [h, List.filter_append, List.length_append]
  congr 1
  by_cases hw : (uid == w) = true
  · simp [List.filter, hw]
  · simp [List.filter, hw]

lemma countActive_map_le {st st1 : Store} {lid : Nat} {l1 : Loan} {now : Int}
    (hret : l1.returnedAt = some now)
    (h : st1.loans = st.loans.map (fun x => if x.id == lid then l1 else x)) (w : Nat) :
    countActiveLoans st1 w ≤ countActiveLoans st w := by
  unfold countActiveLoans
  rw [h]
  apply length_filter_map_le
  intro x hpx
  by_cases hx : (x.id == lid) = true
  · rw [if_pos hx] at hpx
    rw [hret] at hpx
    simp at hpx
  · rw [if_neg hx] at hpx
    exact hpx

/-- C8: (1) after any sequence of createLoan/returnBook calls — in fact even
counting the calls that fail, and under arbitrary injected port failures — a
user who starts within the loan limit stays within it, because every loan row
is inserted only after the limit guard passed; (2) when the user exists and
currentCount ≥ loanLimit, createLoan fails LOAN_LIMIT_EXCEEDED carrying
exactly the limit and the current count. -/
theorem C8_loan_limit :
    (∀ (f : Faults) (ops : List LibOp) (st : Store) (u : User),
      findUserById st u.id = some u →
      countActiveLoans st u.id ≤ u.loanLimit →
      countActiveLoans (applyOps st f ops) u.id ≤ u.loanLimit) ∧
    (∀ (st : Store) (f : Faults) (now : Int) (uid cid : Nat) (u : User),
      findUserById st uid = some u →
      u.loanLimit ≤ countActiveLoans st uid →
      (createLoan st f now uid cid).1 =
        .error (.LOAN_LIMIT_EXCEEDED uid u.loanLimit (countActiveLoans st uid))) := by
  constructor
  · intro f ops
    induction ops with
    | nil =>
        intro st u _ hcount
        simpa [applyOps] using hcount
    | cons op rest ih =>
        intro st u hu hcount
        have hstep : applyOps st f (op :: rest) = applyOps (applyOp st f op) f rest := by
          simp [applyOps]
        rw [hstep]
        have husers : (applyOp st f op).users = st.users := by
          cases op with
          | borrow v c now => exact (createLoan_state st f now v c).1
          | giveBack l now => exact (returnBook_state st f now l).1
        have hu1 : findUserById (applyOp st f op) u.id = some u := by
          unfold findUserById
          rw [husers]
          exact hu
        have hcount1 : countActiveLoans (applyOp st f op) u.id ≤ u.loanLimit := by
          cases op with
          | borrow v c now =>
              simp only [applyOp]
              rcases (createLoan_state st f now v c).2 with heq | ⟨user, hU2, hlt, hloans⟩
              · rw [countActive_of_loans_eq heq]
                exact hcount
              · rw [countActive_append_new hloans]
                by_cases hv : (v == u.id) = true
                · have hvu : v = u.id := beq_iff_eq.mp hv
                  rw [hvu] at hU2
                  rw [hu] at hU2
                  have huser : user = u := by
                    exact (Option.some.injEq _ _).mp hU2.symm
                  rw [if_pos hv]
                  rw [hvu, huser] at hlt
                  omega
                · rw [if_neg hv]
                  simpa using hcount
          | giveBack l now =>
              simp only [applyOp]
              rcases (returnBook_state st f now l).2 with heq | ⟨l1, hret, hloans⟩
              · rw [countActive_of_loans_eq heq]
                exact hcount
              · exact le_trans (countActive_map_le hret hloans u.id) hcount
        exact ih (applyOp st f op) u hu1 hcount1
  · intro st f now uid cid u hu hlim
    simp only [createLoan, hu]
    rw [if_pos hlim]

/-- Store for the C8 witness guard conjunct: user 10 has limit 1 and one active loan. -/
def C8store : Store :=
  ⟨[⟨10, 1⟩], [], [⟨7, 5, .AVAILABLE⟩], [⟨1, 10, 7, 0, 100, none⟩], [], [], 2⟩

/-- Witness for C8 at concrete stores. -/
theorem C8_witness :
    countActiveLoans (applyOps C3store noFaults [.borrow 10 7 0]) 10 ≤
      (⟨10, 5⟩ : User).loanLimit ∧
    (createLoan C8store noFaults 0 10 7).1 =
      .error (.LOAN_LIMIT_EXCEEDED 10 (⟨10, 1⟩ : User).loanLimit
        (countActiveLoans C8store 10)) :=
  ⟨C8_loan_limit.1 noFaults [.borrow 10 7 0] C3store ⟨10, 5⟩ (by decide) (by decide),
   C8_loan_limit.2 C8store noFaults 0 10 7 ⟨10, 1⟩ (by decide) (by decide)⟩

-- ============================================
-- C9: overdue detection and the overdue record
-- ============================================

/-- C9: returning an active loan at `now` (all ports succeeding) reports
isOverdue exactly when now is past the due date; when overdue, overdueDays is
the ceiling of the lateness in days (characterized arithmetically and
strictly positive) and an OverdueRecord carrying that value is appended; when
on time, no overdue data and no record are produced. -/
theorem C9_overdue (st : Store) (now : Int) (loanId : Nat) (loan : Loan)
    (hfind : st.loans.find? (fun l => l.id == loanId) = some loan)
    (hact : loan.returnedAt = none)
    (hcopy : ∃ c, st.copies.find? (fun x => x.id == loan.bookCopyId) = some c) :
    ∃ res : ReturnResult, (returnBook st noFaults now loanId).1 = .ok res ∧
      res.isOverdue = decide (loan.dueDate < now) ∧
      (loan.dueDate < now →
        res.overdueDays = some (ceilDays (now - loan.dueDate)) ∧
        1 ≤ ceilDays (now - loan.dueDate) ∧
        (ceilDays (now - loan.dueDate) - 1) * 86400000 < (now - loan.dueDate).toNat ∧
        (now - loan.dueDate).toNat ≤ ceilDays (now - loan.dueDate) * 86400000 ∧
        ∃ odr : OverdueRecord, res.overdueRecord = some odr ∧
          odr.overdueDays = ceilDays (now - loan.dueDate) ∧
          (returnBook st noFaults now loanId).2.overdueRecords =
            st.overdueRecords ++ [odr]) ∧
      (¬ loan.dueDate < now →
        res.isOverdue = false ∧ res.overdueDays = none ∧ res.overdueRecord = none ∧
        (returnBook st noFaults now loanId).2.overdueRecords = st.overdueRecords) := by
  obtain ⟨c, hc⟩ := hcopy
  have h1 : updateReturnedAt st noFaults loanId now =
      .ok ({ loan with returnedAt := some now },
        { st with loans :=
          st.loans.map (fun x => if x.id == loanId then { loan with returnedAt := some now }
            else x) }) := by
    unfold updateReturnedAt
    rw [hfind]
    simp [noFaults]
  have h2 : updateCopy
      { st with loans :=
        st.loans.map (fun x => if x.id == loanId then { loan with returnedAt := some now }
          else x) } noFaults loan.bookCopyId .AVAILABLE =
      .ok { st with
        loans := st.loans.map (fun x => if x.id == loanId then
          { loan with returnedAt := some now } else x)
        copies := st.copies.map (fun x => if x.id == loan.bookCopyId then
          { x with status := .AVAILABLE } else x) } := by
    unfold updateCopy
    simp only [noFaults, Bool.false_eq_true, if_false]
    rw [hc]
  by_cases hO : loan.dueDate < now
  · have harith : 1 ≤ ceilDays (now - loan.dueDate) ∧
        (ceilDays (now - loan.dueDate) - 1) * 86400000 < (now - loan.dueDate).toNat ∧
        (now - loan.dueDate).toNat ≤ ceilDays (now - loan.dueDate) * 86400000 := by
      unfold ceilDays
      have hpos : 1 ≤ (now - loan.dueDate).toNat := by omega
      omega
    have h3 : overdueCreate
        { st with
          loans := st.loans.map (fun x => if x.id == loanId then
            { loan with returnedAt := some now } else x)
          copies := st.copies.map (fun x => if x.id == loan.bookCopyId then
            { x with status := .AVAILABLE } else x) } noFaults loanId
        (ceilDays (now - loan.dueDate)) now =
        .ok (⟨st.nextId, loanId, ceilDays (now - loan.dueDate), now⟩,
          { st with
            loans := st.loans.map (fun x => if x.id == loanId then
              { loan with returnedAt := some now } else x)
            copies := st.copies.map (fun x => if x.id == loan.bookCopyId then
              { x with status := .AVAILABLE } else x)
            overdueRecords := st.overdueRecords ++
              [⟨st.nextId, loanId, ceilDays (now - loan.dueDate), now⟩]
            nextId := st.nextId + 1 }) := by
      unfold overdueCreate
      simp [noFaults]
    refine ⟨⟨{ loan with returnedAt := some now }, true,
      some (ceilDays (now - loan.dueDate)),
      some ⟨st.nextId, loanId, ceilDays (now - loan.dueDate), now⟩⟩, ?_, ?_, ?_, ?_⟩
    · simp only [returnBook, hfind, hact, h1, h2, if_pos hO, h3]
    · simp [hO]
    · intro _
      refine ⟨rfl, harith.1, harith.2.1, harith.2.2,
        ⟨st.nextId, loanId, ceilDays (now - loan.dueDate), now⟩, rfl, rfl, ?_⟩
      simp only [returnBook, hfind, hact, h1, h2, if_pos hO, h3]
    · intro hcontra
      exact absurd hO hcontra
  · refine ⟨⟨{ loan with returnedAt := some now }, false, none, none⟩, ?_, ?_, ?_, ?_⟩
    · simp only [returnBook, hfind, hact, h1, h2, if_neg hO]
    · simp [hO]
    · intro hcontra
      exact absurd hcontra hO
    · intro _
      refine ⟨rfl, rfl, rfl, ?_⟩
      simp only [returnBook, hfind, hact, h1, h2, if_neg hO]

/-- Store for the C9 witness: an active loan due at 1, returned at 5. -/
def C9store : Store := ⟨[], [], [⟨7, 5, .BORROWED⟩], [⟨1, 10, 7, 0, 1, none⟩], [], [], 2⟩

/-- Witness for C9 at a concrete store. -/
theorem C9_witness :
    ∃ res : ReturnResult, (returnBook C9store noFaults 5 1).1 = .ok res ∧
      res.isOverdue = decide ((⟨1, 10, 7, 0, 1, none⟩ : Loan).dueDate < (5 : Int)) :=
  match C9_overdue C9store 5 1 ⟨1, 10, 7, 0, 1, none⟩ (by decide) rfl
      ⟨⟨7, 5, .BORROWED⟩, by decide⟩ with
  | ⟨res, hok, hov, _, _⟩ => ⟨res, hok, hov⟩

end Library
